import Mathlib

/-!
Shallow embedding of the CSV-to-InfluxDB ingestion core of
`src/python/write_experiment_opc_csv.py`, together with theorems checking the
natural-language specification against it.

Modelling conventions:

* Python `dict`s become association lists (`List (String × α)`) with
  first-match lookup (`findA`), replace-in-place-or-append assignment (`setA`)
  and `dict.update` (`dictUpdate`).
* Python `str` values become Lean `String`s; `str.strip`/`lower`/`upper` are
  modelled on ASCII (`pyStrip`, `pyLower`, `pyUpper`).
* Python `float(text)` is modelled by `pyFloat?`, an exact-rational parser for
  Python's float-literal grammar (sign, digit runs with single underscores
  between digits, optional fraction and exponent, and the `inf`/`infinity`/
  `nan` tokens).  IEEE-754 rounding is not modelled: numeric values are exact
  rationals, which is faithful for everything the claims exercise.
* A CSV file, after `csv.DictReader`, is a list of rows, each row being the
  reader's dict items in header order: `List (String × Option String)`
  (a `none` cell is a `None` value for a short row).
-/

instance {ε α : Type} [DecidableEq ε] [DecidableEq α] : DecidableEq (Except ε α) :=
  fun a b =>
    match a, b with
    | .error e, .error f =>
      if h : e = f then .isTrue (congrArg Except.error h)
      else .isFalse (fun hh => h (Except.error.inj hh))
    | .error _, .ok _ => .isFalse (fun hh => Except.noConfusion hh)
    | .ok _, .error _ => .isFalse (fun hh => Except.noConfusion hh)
    | .ok x, .ok y =>
      if h : x = y then .isTrue (congrArg Except.ok h)
      else .isFalse (fun hh => h (Except.ok.inj hh))

/-- The `FieldType` alias `Literal["float", "bool", "string"]`. -/
inductive FieldType where
  | float
  | bool
  | string
deriving DecidableEq, Repr

/-- Result of Python `float(text)`: an exact rational `num / den` (with `den`
always a positive power of ten, not normalized), a signed infinity, or a NaN.
An unnormalized fraction is used instead of `Rat` so that every value the
parser builds evaluates by kernel reduction. -/
inductive PyFloat where
  | finite (num : Int) (den : Nat)
  | inf (neg : Bool)
  | nan
deriving DecidableEq, Repr

/-- A value produced by `coerce_field_value`: Python `bool | float | str`. -/
inductive PyValue where
  | float (x : PyFloat)
  | bool (b : Bool)
  | str (s : String)
deriving DecidableEq, Repr

/-- Python `str.strip` whitespace set (ASCII part). -/
def isPySpace (c : Char) : Bool :=
  c = ' ' ∨ c = '\t' ∨ c = '\n' ∨ c = '\r' ∨ c = '\x0b' ∨ c = '\x0c'

/-- Python `str.strip()` (ASCII whitespace). -/
def pyStrip (s : String) : String :=
  ⟨((s.data.dropWhile isPySpace).reverse.dropWhile isPySpace).reverse⟩

/-- ASCII lower-casing of one character, as in Python `str.lower`. -/
def lowerChar (c : Char) : Char :=
  if 'A' ≤ c ∧ c ≤ 'Z' then Char.ofNat (c.toNat + 32) else c

/-- ASCII upper-casing of one character, as in Python `str.upper`. -/
def upperChar (c : Char) : Char :=
  if 'a' ≤ c ∧ c ≤ 'z' then Char.ofNat (c.toNat - 32) else c

/-- Python `str.lower()` (ASCII). -/
def pyLower (s : String) : String := ⟨s.data.map lowerChar⟩

/-- Python `str.upper()` (ASCII). -/
def pyUpper (s : String) : String := ⟨s.data.map upperChar⟩

def isDigitChar (c : Char) : Bool := '0' ≤ c ∧ c ≤ '9'

def digitVal (c : Char) : Nat := c.toNat - '0'.toNat

/-- Continue a digit run: digits, with single underscores allowed only
between two digits.  Returns the collected digits and the unconsumed rest. -/
def digitRunRest : List Char → List Char → (List Char × List Char)
  | '_' :: d :: rest, acc =>
    if isDigitChar d then digitRunRest rest (d :: acc)
    else (acc.reverse, '_' :: d :: rest)
  | d :: rest, acc =>
    if isDigitChar d then digitRunRest rest (d :: acc)
    else (acc.reverse, d :: rest)
  | [], acc => (acc.reverse, [])

/-- A nonempty digit run (PEP 515 underscores allowed between digits). -/
def takeDigitRun : List Char → Option (List Char × List Char)
  | c :: rest => if isDigitChar c then some (digitRunRest rest [c]) else none
  | [] => none

/-- Numeric value of a digit list. -/
def digitsVal (ds : List Char) : Nat :=
  ds.foldl (fun n c => 10 * n + digitVal c) 0

/-- Parse the part of a Python float literal after the optional sign:
`digits [. [digits]] | . digits`.  Returns numerator, power-of-ten
denominator, and the unconsumed rest. -/
def pyFloatMantissa (l : List Char) : Option (Nat × Nat × List Char) :=
  match takeDigitRun l with
  | some (ds, rest) =>
    match rest with
    | '.' :: rest2 =>
      match takeDigitRun rest2 with
      | some (fs, rest3) => some (digitsVal (ds ++ fs), 10 ^ fs.length, rest3)
      | none => some (digitsVal ds, 1, rest2)
    | _ => some (digitsVal ds, 1, rest)
  | none =>
    match l with
    | '.' :: rest2 =>
      match takeDigitRun rest2 with
      | some (fs, rest3) => some (digitsVal fs, 10 ^ fs.length, rest3)
      | none => none
    | _ => none

/-- Parse an optional exponent `e|E [sign] digits`; the whole input must be
consumed.  Scales the mantissa fraction by the power of ten. -/
def pyFloatExp (num den : Nat) (l : List Char) : Option (Nat × Nat) :=
  match l with
  | [] => some (num, den)
  | e :: rest =>
    if e = 'e' ∨ e = 'E' then
      let (eneg, rest2) :=
        match rest with
        | '-' :: r => (true, r)
        | '+' :: r => (false, r)
        | r => (false, r)
      match takeDigitRun rest2 with
      | some (ds, []) =>
        some (if eneg then (num, den * 10 ^ digitsVal ds)
              else (num * 10 ^ digitsVal ds, den))
      | _ => none
    else none

/-- Python `float(text)` on an already-stripped string.  Returns `none` when
`float` would raise `ValueError`. -/
def pyFloatChars (l : List Char) : Option PyFloat :=
  let (neg, rest) :=
    match l with
    | '-' :: r => (true, r)
    | '+' :: r => (false, r)
    | r => (false, r)
  let low := rest.map lowerChar
  if low = "inf".data ∨ low = "infinity".data then some (.inf neg)
  else if low = "nan".data then some .nan
  else
    match pyFloatMantissa rest with
    | some (num, den, rest2) =>
      match pyFloatExp num den rest2 with
      | some (num2, den2) =>
        some (.finite (if neg then -(num2 : Int) else (num2 : Int)) den2)
      | none => none
    | none => none

/-- Python `float(text)` (see `pyFloatChars`). -/
def pyFloat? (s : String) : Option PyFloat := pyFloatChars s.data

section Assoc

variable {α : Type}

/-- Python `dict` lookup on an association list (first match). -/
def findA : List (String × α) → String → Option α
  | [], _ => none
  | (k, v) :: rest, f => if k = f then some v else findA rest f

/-- Python `dict` assignment: replace in place, or append a new key. -/
def setA : List (String × α) → String → α → List (String × α)
  | [], k, v => [(k, v)]
  | (k', v') :: rest, k, v =>
    if k' = k then (k', v) :: rest else (k', v') :: setA rest k v

/-- Python `d.update(e)`: every entry of `e` is assigned into `d`. -/
def dictUpdate (d e : List (String × α)) : List (String × α) :=
  e.foldl (fun m kv => setA m kv.1 kv.2) d

end Assoc

/-- The `IngestStats` dataclass: per-field skipped-coercion counts. -/
structure IngestStats where
  skipped_fields : List (String × Nat)
deriving DecidableEq, Repr

/-- `IngestStats.record_skip`. -/
def record_skip (stats : IngestStats) (f : String) : IngestStats :=
  ⟨setA stats.skipped_fields f ((findA stats.skipped_fields f).getD 0 + 1)⟩

/-- The skip counter of one field (`skipped_fields.get(field, 0)`). -/
def skipCount (stats : IngestStats) (f : String) : Nat :=
  (findA stats.skipped_fields f).getD 0

/-- A `Set[FieldType]` (there are only three possible members). -/
structure FieldTypeSet where
  hasFloat : Bool
  hasBool : Bool
  hasString : Bool
deriving DecidableEq, Repr

def FieldTypeSet.empty : FieldTypeSet := ⟨false, false, false⟩

/-- `set.add` for `FieldTypeSet`. -/
def FieldTypeSet.insert (s : FieldTypeSet) : FieldType → FieldTypeSet
  | .float => { s with hasFloat := true }
  | .bool => { s with hasBool := true }
  | .string => { s with hasString := true }

/-- Membership in a `FieldTypeSet`. -/
def FieldTypeSet.mem (s : FieldTypeSet) : FieldType → Bool
  | .float => s.hasFloat
  | .bool => s.hasBool
  | .string => s.hasString

/-- One row as produced by `csv.DictReader`: the dict items in header order. -/
abbrev Row := List (String × Option String)

/-- The classification of one nonempty trimmed cell text in
`detect_field_types`: `bool` for a `true`/`false` literal, else `float` if
`float(text)` succeeds, else `string`. -/
def classifyValue (text : String) : FieldType :=
  if pyLower text = "true" ∨ pyLower text = "false" then .bool
  else
    match pyFloat? text with
    | some _ => .float
    | none => .string

/-- `candidates.setdefault(field, set()).add(candidate)`. -/
def addCandidate (m : List (String × FieldTypeSet)) (f : String) (c : FieldType) :
    List (String × FieldTypeSet) :=
  match m with
  | [] => [(f, FieldTypeSet.empty.insert c)]
  | (k, s) :: rest =>
    if k = f then (k, s.insert c) :: rest else (k, s) :: addCandidate rest f c

/-- The body of the innermost loop of `detect_field_types`, processing one
`(field, raw_value)` item of a row. -/
def detectStep (m : List (String × FieldTypeSet)) (cell : String × Option String) :
    List (String × FieldTypeSet) :=
  if cell.1 = "timestamp" then m
  else
    match cell.2 with
    | none => m
    | some raw =>
      let text := pyStrip raw
      if text = "" then m else addCandidate m cell.1 (classifyValue text)

/-- Resolution of the accumulated classification set of one field:
`float` if ever seen, else `string` if ever seen, else `bool`. -/
def resolveSet (s : FieldTypeSet) : FieldType :=
  if s.hasFloat then .float else if s.hasString then .string else .bool

/-- `detect_field_types`: scan every cell of every row of every file,
accumulate classification sets per field, then resolve each set. -/
def detect_field_types (files : List (List Row)) : List (String × FieldType) :=
  let candidates :=
    files.foldl (fun m rows => rows.foldl (fun m row => row.foldl detectStep m) m) []
  candidates.map (fun kv => (kv.1, resolveSet kv.2))

/-- `coerce_field_value`: convert one raw cell text to the field's resolved
type, counting unconvertible nonempty texts in `stats`. -/
def coerce_field_value (f : String) (raw : String)
    (field_types : List (String × FieldType)) (stats : Option IngestStats) :
    Option PyValue × Option IngestStats :=
  let text := pyStrip raw
  if text = "" then (none, stats)
  else
    match (findA field_types f).getD .string with
    | .float =>
      match pyFloat? text with
      | some x => (some (.float x), stats)
      | none =>
        let lowered := pyLower text
        if lowered = "true" then (some (.float (.finite 1 1)), stats)
        else if lowered = "false" then (some (.float (.finite 0 1)), stats)
        else (none, stats.map (record_skip · f))
    | .bool =>
      let lowered := pyLower text
      if lowered = "true" ∨ lowered = "1" then (some (.bool true), stats)
      else if lowered = "false" ∨ lowered = "0" then (some (.bool false), stats)
      else (none, stats.map (record_skip · f))
    | .string => (some (.str text), stats)

/-- A Python `datetime`: civil fields plus an optional fixed UTC offset in
minutes (`tzoffset = none` is a naive datetime).  Named timezones are
modelled as fixed offsets; tzdata DST transitions are outside the model. -/
structure Datetime where
  year : Int
  month : Nat
  day : Nat
  hour : Nat
  minute : Nat
  second : Nat
  tzoffset : Option Int
deriving DecidableEq, Repr

/-- Gregorian leap-year rule. -/
def isLeapYear (y : Int) : Bool := (y % 4 = 0 ∧ y % 100 ≠ 0) ∨ y % 400 = 0

/-- Length of a month. -/
def daysInMonth (y : Int) (m : Nat) : Nat :=
  if m = 2 then (if isLeapYear y then 29 else 28)
  else if m = 4 ∨ m = 6 ∨ m = 9 ∨ m = 11 then 30 else 31

/-- Field ranges enforced by the `datetime` constructor. -/
def Datetime.validFields (dt : Datetime) : Prop :=
  1 ≤ dt.month ∧ dt.month ≤ 12 ∧ 1 ≤ dt.day ∧ dt.day ≤ daysInMonth dt.year dt.month ∧
    dt.hour ≤ 23 ∧ dt.minute ≤ 59 ∧ dt.second ≤ 59

instance (dt : Datetime) : Decidable dt.validFields := by
  unfold Datetime.validFields; infer_instance

/-- Days since 1970-01-01 of a civil date (Gregorian, proleptic). -/
def daysFromCivil (y : Int) (m d : Nat) : Int :=
  let y2 : Int := if m ≤ 2 then y - 1 else y
  let era : Int := y2 / 400
  let yoe : Int := y2 - era * 400
  let mp : Int := if 3 ≤ m then (m : Int) - 3 else (m : Int) + 9
  let doy : Int := (153 * mp + 2) / 5 + (d : Int) - 1
  let doe : Int := yoe * 365 + yoe / 4 - yoe / 100 + doy
  era * 146097 + doe - 719468

/-- Seconds since the epoch of the wall-clock fields (ignoring the offset). -/
def Datetime.wallSecs (dt : Datetime) : Int :=
  86400 * daysFromCivil dt.year dt.month dt.day +
    3600 * (dt.hour : Int) + 60 * (dt.minute : Int) + (dt.second : Int)

/-- The instant denoted by an aware datetime: wall-clock seconds minus the
UTC offset.  (For a naive datetime this is just the wall clock.) -/
def Datetime.instantSecs (dt : Datetime) : Int :=
  dt.wallSecs - 60 * dt.tzoffset.getD 0

/-- The next civil date. -/
def nextDate (y : Int) (m d : Nat) : Int × Nat × Nat :=
  if d < daysInMonth y m then (y, m, d + 1)
  else if m < 12 then (y, m + 1, 1)
  else (y + 1, 1, 1)

/-- The previous civil date. -/
def prevDate (y : Int) (m d : Nat) : Int × Nat × Nat :=
  if 1 < d then (y, m, d - 1)
  else if 1 < m then (y, m - 1, daysInMonth y (m - 1))
  else (y - 1, 12, 31)

/-- Shift a civil date by `q` days, where `q` is `-1`, `0` or `1`. -/
def shiftDate (y : Int) (m d : Nat) (q : Int) : Int × Nat × Nat :=
  if q = 1 then nextDate y m d else if q = -1 then prevDate y m d else (y, m, d)

/-- `dt.astimezone(timezone.utc)` for an aware `dt`: subtract the UTC offset
from the wall clock (the offset is strictly less than one day, so the date
moves by at most one day) and attach offset `0`.  A naive `dt` is returned
unchanged; `parse_timestamp` never reaches that case (Python would interpret
it in local time). -/
def astimezoneUtc (dt : Datetime) : Datetime :=
  match dt.tzoffset with
  | none => dt
  | some off =>
    let total : Int := 60 * (dt.hour : Int) + (dt.minute : Int) - off
    let q : Int := total / 1440
    let rem : Int := total % 1440
    let ymd := shiftDate dt.year dt.month dt.day q
    ⟨ymd.1, ymd.2.1, ymd.2.2, (rem / 60).toNat, (rem % 60).toNat, dt.second, some 0⟩

/-- Parser state of `datetime.strptime`, with its documented defaults
1900-01-01 00:00:00. -/
structure StrpAcc where
  y : Nat := 1900
  m : Nat := 1
  d : Nat := 1
  hh : Nat := 0
  mm : Nat := 0
  ss : Nat := 0
deriving DecidableEq, Repr, Inhabited

/-- Collapse runs of whitespace in a format string to a single space, as
CPython's `_strptime` rewrites runs of whitespace to one `\s+` pattern. -/
def collapseWsAux : List Char → Bool → List Char
  | [], _ => []
  | c :: rest, inWs =>
    if isPySpace c then
      (if inWs then collapseWsAux rest true else ' ' :: collapseWsAux rest true)
    else c :: collapseWsAux rest false

def collapseWs (l : List Char) : List Char := collapseWsAux l false

/-- Match one or two digits, preferring two, with the per-directive range
checks CPython's `_strptime` regex fragments enforce. -/
def parse21 (valid2 valid1 : Nat → Bool) (l : List Char) : Option (Nat × List Char) :=
  match l with
  | c1 :: c2 :: rest =>
    if isDigitChar c1 then
      if isDigitChar c2 ∧ valid2 (10 * digitVal c1 + digitVal c2) = true then
        some (10 * digitVal c1 + digitVal c2, rest)
      else if valid1 (digitVal c1) then some (digitVal c1, c2 :: rest)
      else none
    else none
  | [c1] =>
    if isDigitChar c1 ∧ valid1 (digitVal c1) = true then some (digitVal c1, []) else none
  | [] => none

/-- Match exactly four digits (the `%Y` pattern). -/
def parse4 (l : List Char) : Option (Nat × List Char) :=
  match l with
  | a :: b :: c :: d :: rest =>
    if isDigitChar a ∧ isDigitChar b ∧ isDigitChar c ∧ isDigitChar d then
      some (digitsVal [a, b, c, d], rest)
    else none
  | _ => none

/-- Walk the (whitespace-collapsed) format against the input.  Supported
directives: `%Y %m %d %H %M %S %%`; a format whitespace matches a nonempty
run of input whitespace; any other character matches itself.  An unsupported
directive fails, as CPython raises `ValueError` for it. -/
def strpGo : List Char → List Char → StrpAcc → Option StrpAcc
  | [], inp, acc => if inp = [] then some acc else none
  | '%' :: dir :: restF, inp, acc =>
    if dir = '%' then
      match inp with
      | '%' :: restI => strpGo restF restI acc
      | _ => none
    else if dir = 'Y' then
      match parse4 inp with
      | some (v, restI) => strpGo restF restI { acc with y := v }
      | none => none
    else if dir = 'm' then
      match parse21 (fun v => decide (1 ≤ v ∧ v ≤ 12)) (fun v => decide (1 ≤ v)) inp with
      | some (v, restI) => strpGo restF restI { acc with m := v }
      | none => none
    else if dir = 'd' then
      match parse21 (fun v => decide (1 ≤ v ∧ v ≤ 31)) (fun v => decide (1 ≤ v)) inp with
      | some (v, restI) => strpGo restF restI { acc with d := v }
      | none => none
    else if dir = 'H' then
      match parse21 (fun v => decide (v ≤ 23)) (fun _ => true) inp with
      | some (v, restI) => strpGo restF restI { acc with hh := v }
      | none => none
    else if dir = 'M' then
      match parse21 (fun v => decide (v ≤ 59)) (fun _ => true) inp with
      | some (v, restI) => strpGo restF restI { acc with mm := v }
      | none => none
    else if dir = 'S' then
      match parse21 (fun v => decide (v ≤ 59)) (fun _ => true) inp with
      | some (v, restI) => strpGo restF restI { acc with ss := v }
      | none => none
    else none
  | ['%'], _, _ => none
  | c :: restF, inp, acc =>
    if c = ' ' then
      match inp with
      | i :: restI =>
        if isPySpace i then strpGo restF (restI.dropWhile isPySpace) acc else none
      | [] => none
    else
      match inp with
      | i :: restI => if i = c then strpGo restF restI acc else none
      | [] => none

/-- `datetime.strptime(raw, fmt)`: match the format, then build the
`datetime`, which validates the day against the month length. -/
def strptime (raw fmt : String) : Option Datetime :=
  match strpGo (collapseWs fmt.data) raw.data default with
  | some acc =>
    if 1 ≤ acc.y ∧ acc.d ≤ daysInMonth acc.y acc.m then
      some ⟨acc.y, acc.m, acc.d, acc.hh, acc.mm, acc.ss, none⟩
    else none
  | none => none

/-- The error of `resolve_timezone` for an unknown zone name. -/
inductive TzErr where
  | unknownTimeZone (name : String)
deriving DecidableEq, Repr

/-- The `ValueError` message raised for an unknown zone name. -/
def TzErr.message : TzErr → String
  | .unknownTimeZone name => "Unknown time zone: " ++ name

/-- Fixed standard offsets (minutes east of UTC) standing in for the
`zoneinfo` database; DST transitions are outside the model. -/
def zoneOffsets : List (String × Int) :=
  [("Asia/Tokyo", 540), ("America/New_York", -300), ("Europe/Berlin", 60)]

/-- `resolve_timezone`: empty or `naive` gives no timezone, `UTC`
(case-insensitively) gives the zero offset, a known zone name gives its
offset, and an unknown name raises `ValueError` naming the zone. -/
def resolve_timezone (name : String) : Except TzErr (Option Int) :=
  if name = "" ∨ pyLower name = "naive" then .ok none
  else if pyUpper name = "UTC" then .ok (some 0)
  else
    match findA zoneOffsets name with
    | some off => .ok (some off)
    | none => .error (.unknownTimeZone name)

/-- `parse_timestamp`: parse with `strptime`; with no timezone rule return
the parsed value unchanged; otherwise attach the zone to a naive result and
convert to UTC. -/
def parse_timestamp (raw fmt : String) (tz : Option Int) : Except Unit Datetime :=
  match strptime raw fmt with
  | none => .error ()
  | some ts =>
    match tz with
    | none => .ok ts
    | some _ =>
      let ts2 := if ts.tzoffset = none then { ts with tzoffset := tz } else ts
      .ok (astimezoneUtc ts2)

/-- The fatal error of `iter_points`: a nonempty timestamp text that
`parse_timestamp` rejects, with the context the raised `ValueError` message
interpolates. -/
inductive IngestErr where
  | timestampParse (raw : String) (path : String) (rowNumber : Nat)
deriving DecidableEq, Repr

/-- The `ValueError` message of `iter_points` (`repr` of the raw text is
modelled as plain single quotes around it). -/
def IngestErr.message : IngestErr → String
  | .timestampParse raw path n =>
    "Failed to parse timestamp '" ++ raw ++ "' in " ++ path ++ " at row " ++ toString n

/-- An InfluxDB `Point`: measurement, tags, time, typed fields. -/
structure Point where
  measurement : String
  tags : List (String × String)
  time : Datetime
  fields : List (String × PyValue)
deriving DecidableEq, Repr

/-- The field loop of `iter_points` over one row: every non-`timestamp`,
non-`None` cell is coerced; cells that coerce to no value are omitted. -/
def rowFields (field_types : List (String × FieldType)) (row : Row)
    (stats : IngestStats) : List (String × PyValue) × IngestStats :=
  row.foldl
    (fun acc cell =>
      if cell.1 = "timestamp" then acc
      else
        match cell.2 with
        | none => acc
        | some rawv =>
          let res := coerce_field_value cell.1 rawv field_types (some acc.2)
          match res.1 with
          | some v => (acc.1 ++ [(cell.1, v)], res.2.getD acc.2)
          | none => (acc.1, res.2.getD acc.2))
    ([], stats)

/-- The body of `iter_points` for one row: a missing or empty timestamp
silently skips the row; an unparsable one aborts with a contextual error;
otherwise one tagged, timed point is built from the coerced fields. -/
def pointOfRow (measurement fname fmt : String) (tz : Option Int)
    (field_types : List (String × FieldType)) (rowNumber : Nat) (row : Row)
    (stats : IngestStats) : Except IngestErr (Option Point × IngestStats) :=
  match (findA row "timestamp").join with
  | none => .ok (none, stats)
  | some raw =>
    if raw = "" then .ok (none, stats)
    else
      match parse_timestamp raw fmt tz with
      | .error _ => .error (.timestampParse raw fname rowNumber)
      | .ok ts =>
        let fs := rowFields field_types row stats
        .ok (some ⟨measurement, [("source_file", fname)], ts, fs.1⟩, fs.2)

/-- The row loop of `iter_points` over one file, rows numbered from 1. -/
def processRows (measurement fname fmt : String) (tz : Option Int)
    (field_types : List (String × FieldType)) (rowNumber : Nat) (rows : List Row)
    (stats : IngestStats) : Except IngestErr (List Point × IngestStats) :=
  match rows with
  | [] => .ok ([], stats)
  | row :: rest =>
    match pointOfRow measurement fname fmt tz field_types rowNumber row stats with
    | .error e => .error e
    | .ok res =>
      match processRows measurement fname fmt tz field_types (rowNumber + 1) rest res.2 with
      | .error e => .error e
      | .ok res2 => .ok (res.1.toList ++ res2.1, res2.2)

/-- `iter_points`, with each file given as its name and its parsed rows.
The lazy generator is modelled as the list of all points it yields (or the
error that aborts it), together with the final `IngestStats`. -/
def iter_points (files : List (String × List Row)) (measurement fmt : String)
    (tz : Option Int) (field_types : List (String × FieldType))
    (stats : IngestStats) : Except IngestErr (List Point × IngestStats) :=
  match files with
  | [] => .ok ([], stats)
  | (fname, rows) :: rest =>
    match processRows measurement fname fmt tz field_types 1 rows stats with
    | .error e => .error e
    | .ok res =>
      match iter_points rest measurement fmt tz field_types res.2 with
      | .error e => .error e
      | .ok res2 => .ok (res.1 ++ res2.1, res2.2)

/-- The fatal error of `locate_csv_files`. -/
inductive LocateErr where
  | noCsvFiles (directory : String)
deriving DecidableEq, Repr

/-- The `FileNotFoundError` message of `locate_csv_files`. -/
def LocateErr.message : LocateErr → String
  | .noCsvFiles d => "No CSV files found in " ++ d

/-- Does a file name match the glob `*.csv` (i.e. end in `.csv`)?  Defined on
the character list so that it evaluates by kernel reduction. -/
def matchesCsv (name : String) : Bool :=
  (name.data.reverse.take 4).reverse = ".csv".data

/-- Insert into a sorted list of names. -/
def insertSorted (s : String) : List String → List String
  | [] => [s]
  | t :: rest => if s ≤ t then s :: t :: rest else t :: insertSorted s rest

/-- `sorted` on file names (insertion sort, order by string comparison). -/
def sortStrings (l : List String) : List String := l.foldr insertSorted []

/-- `locate_csv_files`: the directory entries matching `*.csv`, sorted by
name; a fatal error when none match. -/
def locate_csv_files (directory : String) (entries : List String) :
    Except LocateErr (List String) :=
  let files := sortStrings (entries.filter matchesCsv)
  if files.isEmpty then .error (.noCsvFiles directory) else .ok files

/-- The loop of `write_points`: `total_points`, `batches`, the open `batch`,
and the batches handed to the write API so far. -/
def writeLoop (bs : Nat) : List Point → Nat → Nat → List Point → List (List Point) →
    Nat × Nat × List (List Point)
  | [], total, nBatches, batch, written =>
    if batch.isEmpty then (total, nBatches, written)
    else (total + batch.length, nBatches + 1, written ++ [batch])
  | p :: rest, total, nBatches, batch, written =>
    let b2 := batch ++ [p]
    if bs ≤ b2.length then
      writeLoop bs rest (total + b2.length) (nBatches + 1) [] (written ++ [b2])
    else writeLoop bs rest total nBatches b2 written

/-- `write_points`: returns `(total_points, batches)` and, as the model of
the write collaborator, the sequence of batches it received. -/
def write_points (points : List Point) (batch_size : Nat) :
    Nat × Nat × List (List Point) :=
  writeLoop batch_size points 0 0 [] []

/-! ### Association-list lemmas -/

theorem findA_setA {α : Type} (m : List (String × α)) (k : String) (v : α) (f : String) :
    findA (setA m k v) f = if k = f then some v else findA m f := by
  induction m with
  | nil => simp [setA, findA]
  | cons p rest ih =>
    obtain ⟨k', v'⟩ := p
    by_cases h1 : k' = k
    · subst h1
      by_cases h2 : k' = f <;> simp [setA, findA, h2]
    · by_cases h2 : k' = f
      · subst h2
        simp [setA, findA, h1, Ne.symm h1]
      · simp [setA, findA, h1, h2, ih]

theorem findA_dictUpdate_not_mem {α : Type} (e : List (String × α)) :
    ∀ (d : List (String × α)) (f : String), f ∉ e.map Prod.fst →
      findA (dictUpdate d e) f = findA d f := by
  induction e with
  | nil => intro d f _; rfl
  | cons p rest ih =>
    intro d f hf
    simp only [List.map_cons, List.mem_cons] at hf
    push_neg at hf
    have : dictUpdate d (p :: rest) = dictUpdate (setA d p.1 p.2) rest := rfl
    rw [this, ih _ f hf.2, findA_setA]
    simp [Ne.symm hf.1]

theorem findA_dictUpdate_some {α : Type} (e : List (String × α)) :
    ∀ (d : List (String × α)) (f : String) (t : α), (e.map Prod.fst).Nodup →
      findA e f = some t → findA (dictUpdate d e) f = some t := by
  induction e with
  | nil => intro d f t _ h; simp [findA] at h
  | cons p rest ih =>
    intro d f t hnd h
    obtain ⟨k, v⟩ := p
    simp only [List.map_cons, List.nodup_cons] at hnd
    have hstep : dictUpdate d ((k, v) :: rest) = dictUpdate (setA d k v) rest := rfl
    by_cases h1 : k = f
    · subst h1
      simp only [findA, if_pos rfl] at h
      cases h
      rw [hstep, findA_dictUpdate_not_mem rest _ k hnd.1, findA_setA]
      simp
    · simp only [findA, if_neg h1] at h
      rw [hstep]
      exact ih _ f t hnd.2 h

theorem findA_dictUpdate_none {α : Type} (e : List (String × α)) :
    ∀ (d : List (String × α)) (f : String), findA e f = none →
      findA (dictUpdate d e) f = findA d f := by
  induction e with
  | nil => intro d f _; rfl
  | cons p rest ih =>
    intro d f h
    obtain ⟨k, v⟩ := p
    by_cases h1 : k = f
    · simp [findA, h1] at h
    · simp only [findA, if_neg h1] at h
      have hstep : dictUpdate d ((k, v) :: rest) = dictUpdate (setA d k v) rest := rfl
      rw [hstep, ih _ f h, findA_setA, if_neg h1]

/-- C2: the reconciled TypeTable (`field_types.update(existing_types)`) maps
every field present in the existing table to its existing type, overriding
any conflicting detected type, and maps every field present only in the
detected table to its detected type. -/
theorem reconciler_existing_wins (detected existing : List (String × FieldType))
    (f : String) (hnd : (existing.map Prod.fst).Nodup) :
    (∀ t, findA existing f = some t → findA (dictUpdate detected existing) f = some t) ∧
    (findA existing f = none → findA (dictUpdate detected existing) f = findA detected f) :=
  ⟨fun t ht => findA_dictUpdate_some existing detected f t hnd ht,
   fun h => findA_dictUpdate_none existing detected f h⟩

/-- Witness for C2: a conflicting field keeps its existing type, a
detected-only field keeps its detected type. -/
theorem reconciler_existing_wins_wit :
    findA (dictUpdate [("temp", FieldType.string), ("alarm", FieldType.bool)]
      [("temp", FieldType.float)]) "temp" = some FieldType.float ∧
    findA (dictUpdate [("temp", FieldType.string), ("alarm", FieldType.bool)]
      [("temp", FieldType.float)]) "alarm" = some FieldType.bool := by
  constructor
  · exact (reconciler_existing_wins [("temp", .string), ("alarm", .bool)]
      [("temp", .float)] "temp" (by decide)).1 .float (by decide)
  · exact ((reconciler_existing_wins [("temp", .string), ("alarm", .bool)]
      [("temp", .float)] "alarm" (by decide)).2 (by decide)).trans (by decide)

/-! ### Coercion lemmas -/

theorem pyStrip_eq_empty (raw : String) (h : raw = "" ∨ ∀ c ∈ raw.data, isPySpace c = true) :
    pyStrip raw = "" := by
  rcases h with h | h
  · subst h; rfl
  · have h1 : raw.data.dropWhile isPySpace = [] := List.dropWhile_eq_nil_iff.mpr h
    simp [pyStrip, h1]

theorem skipCount_record_skip (st : IngestStats) (f g : String) :
    skipCount (record_skip st f) g =
      if f = g then skipCount st g + 1 else skipCount st g := by
  by_cases h : f = g <;>
    simp [skipCount, record_skip, findA_setA, h]

/-- C4: coercing empty or whitespace-only text yields no value and leaves the
stats accumulator unchanged, regardless of the field's resolved type. -/
theorem coerce_empty_text (f raw : String) (field_types : List (String × FieldType))
    (stats : Option IngestStats)
    (h : raw = "" ∨ ∀ c ∈ raw.data, isPySpace c = true) :
    coerce_field_value f raw field_types stats = (none, stats) := by
  have h1 := pyStrip_eq_empty raw h
  simp [coerce_field_value, h1]

/-- Witness for C4: whitespace-only text is silently skipped with stats
untouched. -/
theorem coerce_empty_text_wit :
    coerce_field_value "temp" "  " [("temp", FieldType.float)]
      (some ⟨[("temp", 3)]⟩) = (none, some ⟨[("temp", 3)]⟩) :=
  coerce_empty_text "temp" "  " [("temp", .float)] (some ⟨[("temp", 3)]⟩)
    (Or.inr (by decide))

/-- C3: the Value Coercer's behavior on nonempty trimmed text for Float- and
Boolean-typed fields: parses or falls back as specified, and every failing
coercion increments exactly that field's skip counter by exactly one. -/
theorem coerce_typed_branches (f raw : String) (tt : List (String × FieldType))
    (st : IngestStats) (htext : pyStrip raw ≠ "") :
    ((findA tt f).getD .string = .float →
      (∀ x, pyFloat? (pyStrip raw) = some x →
        coerce_field_value f raw tt (some st) = (some (.float x), some st)) ∧
      (pyFloat? (pyStrip raw) = none → pyLower (pyStrip raw) = "true" →
        coerce_field_value f raw tt (some st) = (some (.float (.finite 1 1)), some st)) ∧
      (pyFloat? (pyStrip raw) = none → pyLower (pyStrip raw) = "false" →
        coerce_field_value f raw tt (some st) = (some (.float (.finite 0 1)), some st)) ∧
      (pyFloat? (pyStrip raw) = none → pyLower (pyStrip raw) ≠ "true" →
        pyLower (pyStrip raw) ≠ "false" →
        coerce_field_value f raw tt (some st) = (none, some (record_skip st f)) ∧
        skipCount (record_skip st f) f = skipCount st f + 1 ∧
        ∀ g, g ≠ f → skipCount (record_skip st f) g = skipCount st g)) ∧
    ((findA tt f).getD .string = .bool →
      (pyLower (pyStrip raw) = "true" ∨ pyLower (pyStrip raw) = "1" →
        coerce_field_value f raw tt (some st) = (some (.bool true), some st)) ∧
      (pyLower (pyStrip raw) = "false" ∨ pyLower (pyStrip raw) = "0" →
        coerce_field_value f raw tt (some st) = (some (.bool false), some st)) ∧
      (pyLower (pyStrip raw) ≠ "true" → pyLower (pyStrip raw) ≠ "1" →
        pyLower (pyStrip raw) ≠ "false" → pyLower (pyStrip raw) ≠ "0" →
        coerce_field_value f raw tt (some st) = (none, some (record_skip st f)) ∧
        skipCount (record_skip st f) f = skipCount st f + 1 ∧
        ∀ g, g ≠ f → skipCount (record_skip st f) g = skipCount st g)) := by
  constructor
  · intro hty
    refine ⟨fun x hx => ?_, fun hpf h1 => ?_, fun hpf h1 => ?_, fun hpf h1 h2 => ?_⟩
    · simp [coerce_field_value, htext, hty, hx]
    · simp [coerce_field_value, htext, hty, hpf, h1]
    · have h2 : pyLower (pyStrip raw) ≠ "true" := by rw [h1]; decide
      simp [coerce_field_value, htext, hty, hpf, h1, h2]
    · refine ⟨by simp [coerce_field_value, htext, hty, hpf, h1, h2], ?_, fun g hg => ?_⟩
      · simp [skipCount_record_skip]
      · simp [skipCount_record_skip, Ne.symm hg]
  · intro hty
    refine ⟨fun h1 => ?_, fun h1 => ?_, fun h1 h2 h3 h4 => ?_⟩
    · rcases h1 with h1 | h1 <;> simp [coerce_field_value, htext, hty, h1]
    · rcases h1 with h1 | h1
      · have h2 : pyLower (pyStrip raw) ≠ "true" := by rw [h1]; decide
        have h3 : pyLower (pyStrip raw) ≠ "1" := by rw [h1]; decide
        simp [coerce_field_value, htext, hty, h1, h2, h3]
      · have h2 : pyLower (pyStrip raw) ≠ "true" := by rw [h1]; decide
        have h3 : pyLower (pyStrip raw) ≠ "1" := by rw [h1]; decide
        simp [coerce_field_value, htext, hty, h1, h2, h3]
    · refine ⟨by simp [coerce_field_value, htext, hty, h1, h2, h3, h4], ?_, fun g hg => ?_⟩
      · simp [skipCount_record_skip]
      · simp [skipCount_record_skip, Ne.symm hg]

/-- Witness for C3: coercing `"ok"` against a Float-typed field skips and
counts exactly one skip for that field. -/
theorem coerce_typed_branches_wit :
    coerce_field_value "status" "ok" [("status", FieldType.float)] (some ⟨[]⟩) =
      (none, some (record_skip ⟨[]⟩ "status")) ∧
    skipCount (record_skip ⟨[]⟩ "status") "status" =
      skipCount (⟨[]⟩ : IngestStats) "status" + 1 := by
  have h := ((coerce_typed_branches "status" "ok" [("status", .float)] ⟨[]⟩
    (by decide)).1 (by decide)).2.2.2 (by decide) (by decide) (by decide)
  exact ⟨h.1, h.2.1⟩

/-- Does a coerced value's Lean constructor match a resolved field type? -/
def valueMatchesType : PyValue → FieldType → Bool
  | .float _, .float => true
  | .bool _, .bool => true
  | .str _, .string => true
  | _, _ => false

/-- C9 counterexample: the text `" "` is a non-empty input text and
`"pressure"` is absent from the TypeTable, yet the Value Coercer yields no
value for it, so coercion for an absent field does not always succeed on
non-empty input text. -/
theorem coerce_absent_field_cex :
    (coerce_field_value "pressure" " " [] (some ⟨[]⟩)).1 = none := by decide

/-- C9 (amended): for input text that is non-empty after trimming, every
value the Value Coercer returns matches the field's resolved type, and a
field absent from the TypeTable is treated as String: coercion returns the
trimmed text and leaves the stats untouched. -/
theorem coerce_value_types (f raw : String) (tt : List (String × FieldType))
    (st : IngestStats) (htext : pyStrip raw ≠ "") :
    (∀ v st2, coerce_field_value f raw tt (some st) = (some v, st2) →
      valueMatchesType v ((findA tt f).getD .string) = true) ∧
    (findA tt f = none →
      coerce_field_value f raw tt (some st) = (some (.str (pyStrip raw)), some st)) := by
  constructor
  · intro v st2 hcv
    rcases hty : (findA tt f).getD .string with _ | _ | _
    · rcases hpf : pyFloat? (pyStrip raw) with _ | x
      · by_cases h1 : pyLower (pyStrip raw) = "true"
        · simp [coerce_field_value, htext, hty, hpf, h1] at hcv
          simp [← hcv.1, valueMatchesType]
        · by_cases h2 : pyLower (pyStrip raw) = "false"
          · simp [coerce_field_value, htext, hty, hpf, h1, h2] at hcv
            simp [← hcv.1, valueMatchesType]
          · simp [coerce_field_value, htext, hty, hpf, h1, h2] at hcv
      · simp [coerce_field_value, htext, hty, hpf] at hcv
        simp [← hcv.1, valueMatchesType]
    · by_cases h1 : pyLower (pyStrip raw) = "true" ∨ pyLower (pyStrip raw) = "1"
      · simp [coerce_field_value, htext, hty, h1] at hcv
        simp [← hcv.1, valueMatchesType]
      · by_cases h2 : pyLower (pyStrip raw) = "false" ∨ pyLower (pyStrip raw) = "0"
        · push_neg at h1
          simp [coerce_field_value, htext, hty, h1.1, h1.2, h2] at hcv
          simp [← hcv.1, valueMatchesType]
        · push_neg at h1
          push_neg at h2
          simp [coerce_field_value, htext, hty, h1.1, h1.2, h2.1, h2.2] at hcv
    · simp [coerce_field_value, htext, hty] at hcv
      simp [← hcv.1, valueMatchesType]
  · intro habs
    simp [coerce_field_value, htext, habs]

/-- Witness for C9 (amended): an absent field coerces to the trimmed string. -/
theorem coerce_value_types_wit :
    coerce_field_value "x" " abc " [] (some ⟨[]⟩) = (some (.str "abc"), some ⟨[]⟩) ∧
    valueMatchesType (.str "abc") ((findA ([] : List (String × FieldType)) "x").getD .string) =
      true := by
  have h := coerce_value_types "x" " abc " [] ⟨[]⟩ (by decide)
  have h2 := h.2 (by decide)
  refine ⟨h2.trans (by decide), h.1 (.str "abc") (some ⟨[]⟩) (h2.trans (by decide))⟩

/-! ### Field-type detection: observation lists and characterization -/

/-- The observation one cell contributes to `detect_field_types`: its field
name and trimmed text, unless the cell is the timestamp column, a `None`
value, or empty after trimming. -/
def cellObs (cell : String × Option String) : Option (String × String) :=
  if cell.1 = "timestamp" then none
  else
    match cell.2 with
    | none => none
    | some raw =>
      let text := pyStrip raw
      if text = "" then none else some (cell.1, text)

def rowObs (row : Row) : List (String × String) := row.filterMap cellObs

def fileObs (rows : List Row) : List (String × String) := (rows.map rowObs).flatten

def allObs (files : List (List Row)) : List (String × String) :=
  (files.map fileObs).flatten

/-- Accumulate one observation into the candidates table. -/
def stepObs (m : List (String × FieldTypeSet)) (o : String × String) :
    List (String × FieldTypeSet) :=
  addCandidate m o.1 (classifyValue o.2)

/-- The trimmed texts observed for one field, in order. -/
def fieldTexts (obs : List (String × String)) (f : String) : List String :=
  obs.filterMap (fun o => if o.1 = f then some o.2 else none)

/-- The trimmed texts observed for one field across all files. -/
def observedTexts (files : List (List Row)) (f : String) : List String :=
  fieldTexts (allObs files) f

/-- The claim's characterization of a Float-classified value: the text parses
as a decimal number and is not case-insensitively `true`/`false`. -/
def specIsFloatText (t : String) : Bool :=
  (pyFloat? t).isSome && !(pyLower t == "true" || pyLower t == "false")

/-- Modelled from the spec's words (§4.1): the type the Field-Type Detector
must assign, given the observed values of one field — none when no value was
observed, else Float if any value was classified Float, else String if any
was classified String, else Boolean. -/
def specFieldTypeOf (vals : List String) : Option FieldType :=
  if vals.isEmpty then none
  else if vals.any specIsFloatText then some .float
  else if vals.any (fun t => classifyValue t == .string) then some .string
  else some .bool

theorem detectStep_eq (m : List (String × FieldTypeSet)) (cell : String × Option String) :
    detectStep m cell = match cellObs cell with | none => m | some o => stepObs m o := by
  by_cases h1 : cell.1 = "timestamp"
  · simp [detectStep, cellObs, h1]
  · rcases h2 : cell.2 with _ | raw
    · simp [detectStep, cellObs, h1, h2]
    · by_cases h3 : pyStrip raw = "" <;>
        simp [detectStep, cellObs, stepObs, h1, h2, h3]

theorem row_foldl_detectStep (row : Row) :
    ∀ m, row.foldl detectStep m = (rowObs row).foldl stepObs m := by
  induction row with
  | nil => intro m; rfl
  | cons cell rest ih =>
    intro m
    rw [List.foldl_cons, detectStep_eq]
    rcases h : cellObs cell with _ | o
    · simp [rowObs, List.filterMap_cons, h, ih]
    · simp [rowObs, List.filterMap_cons, h, ih]

theorem file_foldl_detectStep (rows : List Row) :
    ∀ m, rows.foldl (fun m row => row.foldl detectStep m) m =
      (fileObs rows).foldl stepObs m := by
  induction rows with
  | nil => intro m; rfl
  | cons row rest ih =>
    intro m
    rw [List.foldl_cons, ih]
    simp [fileObs, List.foldl_append, row_foldl_detectStep]

theorem files_foldl_detectStep (files : List (List Row)) :
    ∀ m, files.foldl (fun m rows => rows.foldl (fun m row => row.foldl detectStep m) m) m =
      (allObs files).foldl stepObs m := by
  induction files with
  | nil => intro m; rfl
  | cons rows rest ih =>
    intro m
    rw [List.foldl_cons, ih]
    simp [allObs, List.foldl_append, file_foldl_detectStep]

theorem findA_addCandidate (m : List (String × FieldTypeSet)) (f : String)
    (c : FieldType) (g : String) :
    findA (addCandidate m f c) g =
      if f = g then some (((findA m f).getD FieldTypeSet.empty).insert c)
      else findA m g := by
  induction m with
  | nil => by_cases h : f = g <;> simp [addCandidate, findA, h]
  | cons p rest ih =>
    obtain ⟨k, s⟩ := p
    by_cases h1 : k = f
    · subst h1
      by_cases h2 : k = g <;> simp [addCandidate, findA, h2]
    · have hadd : addCandidate ((k, s) :: rest) f c = (k, s) :: addCandidate rest f c := by
        simp [addCandidate, h1]
      by_cases h2 : k = g
      · subst h2
        rw [hadd]
        rw [show findA ((k, s) :: addCandidate rest f c) k = some s from by simp [findA]]
        rw [if_neg (fun h => h1 h.symm)]
        simp [findA]
      · rw [hadd]
        rw [show findA ((k, s) :: addCandidate rest f c) g = findA (addCandidate rest f c) g
          from by simp [findA, h2]]
        rw [ih]
        simp [findA, h1, h2]

theorem findA_foldl_stepObs (obs : List (String × String)) :
    ∀ (m : List (String × FieldTypeSet)) (f : String),
      findA (obs.foldl stepObs m) f =
        if fieldTexts obs f = [] then findA m f
        else some ((fieldTexts obs f).foldl (fun s t => s.insert (classifyValue t))
          ((findA m f).getD FieldTypeSet.empty)) := by
  induction obs with
  | nil => intro m f; simp [fieldTexts]
  | cons o rest ih =>
    intro m f
    by_cases h : o.1 = f
    · have hft : fieldTexts (o :: rest) f = o.2 :: fieldTexts rest f := by
        simp [fieldTexts, List.filterMap_cons, h]
      have hA : findA (stepObs m o) f =
          some (((findA m f).getD FieldTypeSet.empty).insert (classifyValue o.2)) := by
        rw [stepObs, findA_addCandidate, if_pos h, h]
      rw [List.foldl_cons, ih, hft]
      by_cases hrest : fieldTexts rest f = []
      · simp [hrest, hA]
      · simp [hrest, hA]
    · have hft : fieldTexts (o :: rest) f = fieldTexts rest f := by
        simp [fieldTexts, List.filterMap_cons, h]
      have hA : findA (stepObs m o) f = findA m f := by
        rw [stepObs, findA_addCandidate, if_neg h]
      rw [List.foldl_cons, ih, hft, hA]

theorem mem_insert_set (s : FieldTypeSet) (c c' : FieldType) :
    (s.insert c).mem c' = (s.mem c' || c == c') := by
  cases c <;> cases c' <;>
    simp [FieldTypeSet.insert, FieldTypeSet.mem]

theorem mem_foldl_insert (l : List String) :
    ∀ (s : FieldTypeSet) (c : FieldType),
      (l.foldl (fun s t => s.insert (classifyValue t)) s).mem c =
        (s.mem c || l.any (fun t => classifyValue t == c)) := by
  induction l with
  | nil => intro s c; simp
  | cons t rest ih =>
    intro s c
    rw [List.foldl_cons, ih, List.any_cons, mem_insert_set]
    cases hb : s.mem c <;> cases hc : classifyValue t == c <;> simp

theorem findA_map_val {α β : Type} (g : α → β) (m : List (String × α)) (f : String) :
    findA (m.map (fun kv => (kv.1, g kv.2))) f = (findA m f).map g := by
  induction m with
  | nil => rfl
  | cons p rest ih =>
    by_cases h : p.1 = f <;> simp [findA, h, ih]

theorem specIsFloatText_eq (t : String) :
    specIsFloatText t = (classifyValue t == FieldType.float) := by
  by_cases hb : pyLower t = "true" ∨ pyLower t = "false"
  · have h1 : classifyValue t = .bool := by simp [classifyValue, hb]
    rcases hb with hb | hb <;> simp [specIsFloatText, h1, hb]
  · push_neg at hb
    rcases hp : pyFloat? t with _ | x
    · have h1 : classifyValue t = .string := by
        simp [classifyValue, hb.1, hb.2, hp]
      simp [specIsFloatText, h1, hp]
    · have h1 : classifyValue t = .float := by
        simp [classifyValue, hb.1, hb.2, hp]
      simp [specIsFloatText, h1, hp, hb.1, hb.2]

/-- Characterization of `detect_field_types`: the lookup of any field equals
the spec-side resolution of the texts observed for that field. -/
theorem detect_lookup (files : List (List Row)) (f : String) :
    findA (detect_field_types files) f = specFieldTypeOf (observedTexts files f) := by
  have hrw : findA (detect_field_types files) f =
      (findA ((allObs files).foldl stepObs []) f).map resolveSet := by
    rw [detect_field_types]
    rw [files_foldl_detectStep files []]
    rw [findA_map_val]
  rw [hrw, findA_foldl_stepObs]
  simp only [observedTexts]
  by_cases hempty : fieldTexts (allObs files) f = []
  · simp [hempty, findA, specFieldTypeOf]
  · rw [if_neg hempty]
    simp only [show findA ([] : List (String × FieldTypeSet)) f = none from rfl,
      Option.getD_none]
    rw [show (some (List.foldl (fun s t => s.insert (classifyValue t)) FieldTypeSet.empty
      (fieldTexts (allObs files) f))).map resolveSet =
      some (resolveSet (List.foldl (fun s t => s.insert (classifyValue t)) FieldTypeSet.empty
        (fieldTexts (allObs files) f))) from rfl]
    rw [specFieldTypeOf, if_neg (by simp [List.isEmpty_iff, hempty])]
    have hF := mem_foldl_insert (fieldTexts (allObs files) f) FieldTypeSet.empty .float
    have hS := mem_foldl_insert (fieldTexts (allObs files) f) FieldTypeSet.empty .string
    have hhf : (List.foldl (fun s t => s.insert (classifyValue t)) FieldTypeSet.empty
        (fieldTexts (allObs files) f)).hasFloat =
        (fieldTexts (allObs files) f).any (fun t => classifyValue t == FieldType.float) := by
      simpa [FieldTypeSet.mem, FieldTypeSet.empty] using hF
    have hhs : (List.foldl (fun s t => s.insert (classifyValue t)) FieldTypeSet.empty
        (fieldTexts (allObs files) f)).hasString =
        (fieldTexts (allObs files) f).any (fun t => classifyValue t == FieldType.string) := by
      simpa [FieldTypeSet.mem, FieldTypeSet.empty] using hS
    have hanyF : (fieldTexts (allObs files) f).any specIsFloatText =
        (fieldTexts (allObs files) f).any (fun t => classifyValue t == FieldType.float) := by
      induction fieldTexts (allObs files) f with
      | nil => rfl
      | cons t r ihl => simp [List.any_cons, ihl, specIsFloatText_eq]
    rw [hanyF, resolveSet, hhf, hhs]
    by_cases h1 : (fieldTexts (allObs files) f).any
        (fun t => classifyValue t == FieldType.float) = true
    · simp [h1]
    · simp only [Bool.not_eq_true] at h1
      by_cases h2 : (fieldTexts (allObs files) f).any
          (fun t => classifyValue t == FieldType.string) = true
      · simp [h1, h2]
      · simp only [Bool.not_eq_true] at h2
        simp [h1, h2]

/-- C1: the Field-Type Detector assigns each field with at least one
non-empty, non-timestamp observed value exactly the type given by the
priority rule (Float if any value was classified Float, i.e. parses as a
decimal number and is not case-insensitively true/false; else String if any
value was classified String; else Boolean), and omits fields with no
observed values. -/
theorem detect_assigns_priority_type (files : List (List Row)) (f : String) :
    findA (detect_field_types files) f = specFieldTypeOf (observedTexts files f) :=
  detect_lookup files f

theorem any_of_perm {l1 l2 : List String} (h : l1.Perm l2) (p : String → Bool) :
    l1.any p = l2.any p := by
  cases hb : l2.any p
  · rw [List.any_eq_false] at hb ⊢
    exact fun x hx => hb x (h.mem_iff.mp hx)
  · rw [List.any_eq_true] at hb ⊢
    obtain ⟨x, hx, hpx⟩ := hb
    exact ⟨x, h.mem_iff.mpr hx, hpx⟩

theorem specFieldTypeOf_perm {vals1 vals2 : List String} (h : vals1.Perm vals2) :
    specFieldTypeOf vals1 = specFieldTypeOf vals2 := by
  have hlen := h.length_eq
  have he : vals1.isEmpty = vals2.isEmpty := by
    cases vals1 <;> cases vals2 <;> simp_all
  rw [specFieldTypeOf, specFieldTypeOf, he, any_of_perm h specIsFloatText,
    any_of_perm h (fun t => classifyValue t == FieldType.string)]

theorem allObs_perm {files1 mid files2 : List (List Row)} (h1 : files1.Perm mid)
    (h2 : List.Forall₂ List.Perm mid files2) :
    (allObs files1).Perm (allObs files2) := by
  have p1 : (allObs files1).Perm (allObs mid) :=
    List.Perm.flatten (List.Perm.map fileObs h1)
  have hp : List.Forall₂ List.Perm (mid.map fileObs) (files2.map fileObs) := by
    rw [List.forall₂_map_left_iff, List.forall₂_map_right_iff]
    exact h2.imp fun _ _ hab => List.Perm.flatten (List.Perm.map rowObs hab)
  exact p1.trans (List.Perm.flatten_congr hp)

/-- C10: the Field-Type Detector's output, as a mapping from field name to
type, depends only on the multiset of observations: permuting the input
files, and the rows within each file, leaves every lookup of the resulting
TypeTable unchanged. -/
theorem detect_order_insensitive (files1 mid files2 : List (List Row))
    (h1 : files1.Perm mid) (h2 : List.Forall₂ List.Perm mid files2) (f : String) :
    findA (detect_field_types files1) f = findA (detect_field_types files2) f := by
  rw [detect_lookup, detect_lookup]
  exact specFieldTypeOf_perm ((allObs_perm h1 h2).filterMap _)

/-- Witness for C10: swapping the two files and the two rows of one file
leaves the detected type of `temp` unchanged. -/
theorem detect_order_insensitive_wit :
    findA (detect_field_types
      [[[("temp", some "ok")]], [[("temp", some "1")], [("alarm", some "true")]]]) "temp" =
      some FieldType.float ∧
    findA (detect_field_types
      [[[("alarm", some "true")], [("temp", some "1")]], [[("temp", some "ok")]]]) "temp" =
      some FieldType.float := by
  have h := detect_order_insensitive
    [[[("temp", some "ok")]], [[("temp", some "1")], [("alarm", some "true")]]]
    [[[("temp", some "1")], [("alarm", some "true")]], [[("temp", some "ok")]]]
    [[[("alarm", some "true")], [("temp", some "1")]], [[("temp", some "ok")]]]
    (List.Perm.swap _ _ _)
    (List.Forall₂.cons (List.Perm.swap _ _ _) (List.Forall₂.cons (List.Perm.refl _)
      List.Forall₂.nil))
    "temp"
  exact ⟨h.trans (by decide), (h.symm.trans (by decide)).symm.trans (by decide)⟩

/-! ### Batching -/

/-- The batches the loop of `write_points` flushes, given the open batch. -/
def chunkAcc (bs : Nat) : List Point → List Point → List (List Point)
  | [], batch => if batch.isEmpty then [] else [batch]
  | p :: rest, batch =>
    let b2 := batch ++ [p]
    if bs ≤ b2.length then b2 :: chunkAcc bs rest [] else chunkAcc bs rest b2

theorem writeLoop_cons (bs : Nat) (p : Point) (rest : List Point) (total nB : Nat)
    (batch : List Point) (written : List (List Point)) :
    writeLoop bs (p :: rest) total nB batch written =
      (if bs ≤ (batch ++ [p]).length then
        writeLoop bs rest (total + (batch ++ [p]).length) (nB + 1) [] (written ++ [batch ++ [p]])
      else writeLoop bs rest total nB (batch ++ [p]) written) := rfl

theorem writeLoop_nil (bs : Nat) (total nB : Nat) (batch : List Point)
    (written : List (List Point)) :
    writeLoop bs [] total nB batch written =
      (if batch.isEmpty then (total, nB, written)
      else (total + batch.length, nB + 1, written ++ [batch])) := rfl

theorem chunkAcc_cons (bs : Nat) (p : Point) (rest batch : List Point) :
    chunkAcc bs (p :: rest) batch =
      (if bs ≤ (batch ++ [p]).length then (batch ++ [p]) :: chunkAcc bs rest []
      else chunkAcc bs rest (batch ++ [p])) := rfl

theorem chunkAcc_nil (bs : Nat) (batch : List Point) :
    chunkAcc bs [] batch = (if batch.isEmpty then [] else [batch]) := rfl

theorem writeLoop_eq (bs : Nat) (pts : List Point) :
    ∀ (total nB : Nat) (batch : List Point) (written : List (List Point)),
      writeLoop bs pts total nB batch written =
        (total + batch.length + pts.length, nB + (chunkAcc bs pts batch).length,
          written ++ chunkAcc bs pts batch) := by
  induction pts with
  | nil =>
    intro total nB batch written
    rw [writeLoop_nil, chunkAcc_nil]
    by_cases h : batch.isEmpty = true
    · have hlen : batch.length = 0 := by simpa [List.isEmpty_iff] using h
      rw [if_pos h, if_pos h]
      simp [hlen]
    · rw [if_neg h, if_neg h]
      simp
  | cons p rest ih =>
    intro total nB batch written
    rw [writeLoop_cons, chunkAcc_cons]
    by_cases h : bs ≤ (batch ++ [p]).length
    · rw [if_pos h, if_pos h, ih]
      rw [Prod.mk.injEq, Prod.mk.injEq]
      refine ⟨?_, ?_, ?_⟩
      · simp only [List.length_append, List.length_cons, List.length_nil, List.length_nil,
          List.length_cons]
        omega
      · simp only [List.length_cons]
        omega
      · simp [List.append_assoc]
    · rw [if_neg h, if_neg h, ih]
      rw [Prod.mk.injEq, Prod.mk.injEq]
      refine ⟨?_, rfl, rfl⟩
      show total + (batch ++ [p]).length + rest.length = total + batch.length + (p :: rest).length
      simp only [List.length_append, List.length_cons, List.length_nil]
      omega

theorem chunkAcc_flatten (bs : Nat) (pts : List Point) :
    ∀ batch, (chunkAcc bs pts batch).flatten = batch ++ pts := by
  induction pts with
  | nil =>
    intro batch
    rw [chunkAcc_nil]
    by_cases h : batch.isEmpty = true
    · have : batch = [] := by simpa [List.isEmpty_iff] using h
      rw [if_pos h, this]
      rfl
    · rw [if_neg h]
      simp
  | cons p rest ih =>
    intro batch
    rw [chunkAcc_cons]
    by_cases h : bs ≤ (batch ++ [p]).length
    · rw [if_pos h]
      simp [ih]
    · rw [if_neg h]
      simp [ih]

theorem chunkAcc_sizes (bs : Nat) (pts : List Point) :
    ∀ batch, batch.length < bs →
      ∀ c ∈ chunkAcc bs pts batch, c ≠ [] ∧ c.length ≤ bs := by
  induction pts with
  | nil =>
    intro batch hb c hc
    rw [chunkAcc_nil] at hc
    by_cases h : batch.isEmpty = true
    · rw [if_pos h] at hc
      simp at hc
    · rw [if_neg h] at hc
      simp only [List.mem_singleton] at hc
      subst hc
      exact ⟨by simpa [List.isEmpty_iff] using h, Nat.le_of_lt hb⟩
  | cons p rest ih =>
    intro batch hb c hc
    rw [chunkAcc_cons] at hc
    by_cases h : bs ≤ (batch ++ [p]).length
    · rw [if_pos h] at hc
      rcases List.mem_cons.mp hc with hc | hc
      · subst hc
        refine ⟨by simp, ?_⟩
        simp only [List.length_append, List.length_cons, List.length_nil] at h ⊢
        omega
      · exact ih [] (by simp only [List.length_nil]; omega) c hc
    · rw [if_neg h] at hc
      refine ih (batch ++ [p]) ?_ c hc
      simp only [List.length_append, List.length_cons, List.length_nil] at h ⊢
      omega

theorem chunkAcc_full (bs : Nat) (pts : List Point) :
    ∀ batch, batch.length < bs →
      ∀ c ∈ (chunkAcc bs pts batch).dropLast, c.length = bs := by
  induction pts with
  | nil =>
    intro batch _ c hc
    rw [chunkAcc_nil] at hc
    by_cases h : batch.isEmpty = true
    · rw [if_pos h] at hc
      simp at hc
    · rw [if_neg h] at hc
      simp at hc
  | cons p rest ih =>
    intro batch hb c hc
    rw [chunkAcc_cons] at hc
    by_cases h : bs ≤ (batch ++ [p]).length
    · rw [if_pos h] at hc
      rcases hrest : chunkAcc bs rest [] with _ | ⟨c2, cs⟩
      · rw [hrest] at hc
        simp at hc
      · rw [hrest, List.dropLast_cons₂, List.mem_cons] at hc
        rcases hc with hc | hc
        · subst hc
          simp only [List.length_append, List.length_cons, List.length_nil] at h ⊢
          omega
        · have := ih [] (by simp only [List.length_nil]; omega) c
          rw [hrest] at this
          exact this hc
    · rw [if_neg h] at hc
      refine ih (batch ++ [p]) ?_ c hc
      simp only [List.length_append, List.length_cons, List.length_nil] at h ⊢
      omega

theorem chunkAcc_count (bs : Nat) (hbs : 1 ≤ bs) (pts : List Point) :
    ∀ batch, batch.length < bs →
      (chunkAcc bs pts batch).length = (batch.length + pts.length + bs - 1) / bs := by
  induction pts with
  | nil =>
    intro batch hb
    rw [chunkAcc_nil]
    by_cases h : batch.isEmpty = true
    · have hlen : batch.length = 0 := by simpa [List.isEmpty_iff] using h
      rw [if_pos h, hlen]
      simp only [List.length_nil]
      exact (Nat.div_eq_of_lt (by omega)).symm
    · have hlen : 1 ≤ batch.length := by
        rcases batch with _ | _
        · simp at h
        · simp
      rw [if_neg h]
      simp only [List.length_cons, List.length_nil, List.length_nil]
      exact (Nat.div_eq_of_lt_le (by omega) (by omega)).symm
  | cons p rest ih =>
    intro batch hb
    rw [chunkAcc_cons]
    by_cases h : bs ≤ (batch ++ [p]).length
    · have hfull : batch.length + 1 = bs := by
        simp only [List.length_append, List.length_cons, List.length_nil] at h
        omega
      rw [if_pos h, List.length_cons, ih [] (by simp only [List.length_nil]; omega)]
      simp only [List.length_nil, List.length_cons]
      rw [show batch.length + (rest.length + 1) + bs - 1 =
        (0 + rest.length + bs - 1) + bs from by omega]
      rw [Nat.add_div_right _ (by omega)]
    · have h2 : batch.length + 1 < bs := by
        simp only [List.length_append, List.length_cons, List.length_nil] at h
        omega
      rw [if_neg h]
      rw [ih (batch ++ [p]) (by simp only [List.length_append, List.length_cons, List.length_nil]; omega)]
      congr 1
      simp only [List.length_append, List.length_cons, List.length_nil, List.length_cons]
      omega

/-- C6: for batch size at least 1, `write_points` submits the datapoints in
order as contiguous batches of exactly the batch size, with only the final
batch possibly smaller, and reports the total point count and the ceiling
batch count. -/
theorem write_points_batches (points : List Point) (bs : Nat) (hbs : 1 ≤ bs) :
    (write_points points bs).2.2.flatten = points ∧
    (∀ c ∈ (write_points points bs).2.2, c ≠ [] ∧ c.length ≤ bs) ∧
    (∀ c ∈ (write_points points bs).2.2.dropLast, c.length = bs) ∧
    (write_points points bs).1 = points.length ∧
    (write_points points bs).2.1 = (points.length + bs - 1) / bs := by
  have h0 : (0 : Nat) < bs := hbs
  have hwp : write_points points bs =
      (points.length, (chunkAcc bs points []).length, chunkAcc bs points []) := by
    rw [write_points, writeLoop_eq]
    simp
  rw [hwp]
  refine ⟨?_, ?_, ?_, rfl, ?_⟩
  · simpa using chunkAcc_flatten bs points []
  · exact chunkAcc_sizes bs points [] (by simpa using h0)
  · exact chunkAcc_full bs points [] (by simpa using h0)
  · have := chunkAcc_count bs hbs points [] (by simpa using h0)
    simpa using this

/-- Witness for C6: 5 datapoints with batch size 2 produce batches of sizes
2, 2, 1 and report 5 points in 3 batches. -/
theorem write_points_batches_wit :
    (write_points
      [⟨"a", [], ⟨2024, 1, 1, 0, 0, 0, none⟩, []⟩, ⟨"b", [], ⟨2024, 1, 1, 0, 0, 0, none⟩, []⟩,
       ⟨"c", [], ⟨2024, 1, 1, 0, 0, 0, none⟩, []⟩, ⟨"d", [], ⟨2024, 1, 1, 0, 0, 0, none⟩, []⟩,
       ⟨"e", [], ⟨2024, 1, 1, 0, 0, 0, none⟩, []⟩] 2).1 = 5 ∧
    (write_points
      [⟨"a", [], ⟨2024, 1, 1, 0, 0, 0, none⟩, []⟩, ⟨"b", [], ⟨2024, 1, 1, 0, 0, 0, none⟩, []⟩,
       ⟨"c", [], ⟨2024, 1, 1, 0, 0, 0, none⟩, []⟩, ⟨"d", [], ⟨2024, 1, 1, 0, 0, 0, none⟩, []⟩,
       ⟨"e", [], ⟨2024, 1, 1, 0, 0, 0, none⟩, []⟩] 2).2.1 = 3 ∧
    (write_points
      [⟨"a", [], ⟨2024, 1, 1, 0, 0, 0, none⟩, []⟩, ⟨"b", [], ⟨2024, 1, 1, 0, 0, 0, none⟩, []⟩,
       ⟨"c", [], ⟨2024, 1, 1, 0, 0, 0, none⟩, []⟩, ⟨"d", [], ⟨2024, 1, 1, 0, 0, 0, none⟩, []⟩,
       ⟨"e", [], ⟨2024, 1, 1, 0, 0, 0, none⟩, []⟩] 2).2.2.map List.length = [2, 2, 1] := by
  have h := write_points_batches
    [⟨"a", [], ⟨2024, 1, 1, 0, 0, 0, none⟩, []⟩, ⟨"b", [], ⟨2024, 1, 1, 0, 0, 0, none⟩, []⟩,
     ⟨"c", [], ⟨2024, 1, 1, 0, 0, 0, none⟩, []⟩, ⟨"d", [], ⟨2024, 1, 1, 0, 0, 0, none⟩, []⟩,
     ⟨"e", [], ⟨2024, 1, 1, 0, 0, 0, none⟩, []⟩] 2 (by decide)
  exact ⟨h.2.2.2.1.trans (by decide), h.2.2.2.2.trans (by decide), by decide⟩

/-! ### Row skipping and fatal errors -/

theorem processRows_cons (measurement fname fmt : String) (tz : Option Int)
    (field_types : List (String × FieldType)) (n : Nat) (row : Row) (rest : List Row)
    (stats : IngestStats) :
    processRows measurement fname fmt tz field_types n (row :: rest) stats =
      (match pointOfRow measurement fname fmt tz field_types n row stats with
      | .error e => .error e
      | .ok res =>
        match processRows measurement fname fmt tz field_types (n + 1) rest res.2 with
        | .error e => .error e
        | .ok res2 => .ok (res.1.toList ++ res2.1, res2.2)) := rfl

/-- C5: a row whose timestamp column is absent or empty produces no datapoint
and raises no error; the spec's two-row scenario with format
`%Y-%m-%d %H:%M:%S` and the UTC rule produces exactly one datapoint with
`temp` 21.5 (as a float) and `alarm` true (as a boolean). -/
theorem row_skip_empty_timestamp :
    (∀ (measurement fname fmt : String) (tz : Option Int)
        (field_types : List (String × FieldType)) (n : Nat) (row : Row)
        (stats : IngestStats),
      (findA row "timestamp").join = none ∨ (findA row "timestamp").join = some "" →
      pointOfRow measurement fname fmt tz field_types n row stats = .ok (none, stats)) ∧
    iter_points
      [("f.csv",
        [[("timestamp", some "2024-01-01 00:00:00"), ("temp", some "21.5"), ("alarm", some "true")],
         [("timestamp", some ""), ("temp", some "22.0"), ("alarm", some "false")]])]
      "m" "%Y-%m-%d %H:%M:%S" (some 0)
      (detect_field_types
        [[[("timestamp", some "2024-01-01 00:00:00"), ("temp", some "21.5"), ("alarm", some "true")],
          [("timestamp", some ""), ("temp", some "22.0"), ("alarm", some "false")]]])
      ⟨[]⟩ =
    .ok ([⟨"m", [("source_file", "f.csv")], ⟨2024, 1, 1, 0, 0, 0, some 0⟩,
          [("temp", .float (.finite 215 10)), ("alarm", .bool true)]⟩], ⟨[]⟩) := by
  constructor
  · intro measurement fname fmt tz field_types n row stats h
    rcases h with h | h
    · have h2 : ((findA row "timestamp").bind fun a => a) = none := h
      simp [pointOfRow, h2]
    · have h2 : ((findA row "timestamp").bind fun a => a) = some "" := h
      simp [pointOfRow, h2]
  · decide

/-- Witness for C5: a row with an empty timestamp is skipped without error. -/
theorem row_skip_empty_timestamp_wit :
    pointOfRow "m" "f.csv" "%Y-%m-%d %H:%M:%S" (some 0) [] 1
      [("timestamp", some ""), ("temp", some "22.0")] ⟨[]⟩ = .ok (none, ⟨[]⟩) :=
  row_skip_empty_timestamp.1 "m" "f.csv" "%Y-%m-%d %H:%M:%S" (some 0) [] 1
    [("timestamp", some ""), ("temp", some "22.0")] ⟨[]⟩ (Or.inr (by decide))

theorem insertSorted_ne_nil (s : String) (l : List String) : insertSorted s l ≠ [] := by
  cases l with
  | nil => simp [insertSorted]
  | cons t rest =>
    rw [insertSorted]
    by_cases h : s ≤ t <;> simp [h]

theorem sortStrings_eq_nil_iff (l : List String) : sortStrings l = [] ↔ l = [] := by
  cases l with
  | nil => simp [sortStrings]
  | cons t rest =>
    simp only [sortStrings, List.foldr_cons]
    constructor
    · intro h
      exact absurd h (insertSorted_ne_nil t _)
    · intro h
      exact absurd h (by simp)

theorem processRows_snoc_error (measurement fname fmt : String) (tz : Option Int)
    (field_types : List (String × FieldType)) (row : Row) (raw : String)
    (hts : (findA row "timestamp").join = some raw) (hraw : raw ≠ "")
    (hparse : strptime raw fmt = none) :
    ∀ (rs : List Row) (n : Nat) (stats : IngestStats)
      (res : List Point × IngestStats),
      processRows measurement fname fmt tz field_types n rs stats = .ok res →
      processRows measurement fname fmt tz field_types n (rs ++ [row]) stats =
        .error (.timestampParse raw fname (n + rs.length)) := by
  intro rs
  induction rs with
  | nil =>
    intro n stats res _
    have hts2 : ((findA row "timestamp").bind fun a => a) = some raw := hts
    have hpe : parse_timestamp raw fmt tz = .error () := by
      simp only [parse_timestamp, hparse]
    have hpt : pointOfRow measurement fname fmt tz field_types n row stats =
        .error (.timestampParse raw fname n) := by
      simp [pointOfRow, hts2, hpe, hraw]
    rw [List.nil_append, processRows_cons, hpt]
    simp
  | cons r rest ih =>
    intro n stats res hok
    rw [processRows_cons] at hok
    rcases hp : pointOfRow measurement fname fmt tz field_types n r stats with e | res1
    · simp [hp] at hok
    · rcases hq : processRows measurement fname fmt tz field_types (n + 1) rest res1.2
        with e | res2
      · simp [hp, hq] at hok
      · rw [List.cons_append, processRows_cons]
        simp only [hp]
        rw [ih (n + 1) res1.2 res2 hq]
        have harith : n + 1 + rest.length = n + (rest.length + 1) := by omega
        simp [harith]

/-- C8: the three fatal conditions.  Locating input files errors exactly when
no directory entry matches `*.csv`; a nonempty timestamp text rejected by
`strptime` aborts `iter_points` with an error carrying (and whose message
interpolates) the raw text, the file path and the 1-based row number; an
unresolvable named timezone errors naming the zone. -/
theorem fatal_conditions :
    (∀ (directory : String) (entries : List String),
      (∃ e, locate_csv_files directory entries = .error e) ↔
        ∀ n ∈ entries, ¬matchesCsv n = true) ∧
    (∀ (measurement fname fmt : String) (tz : Option Int)
        (field_types : List (String × FieldType)) (rs : List Row) (row : Row)
        (raw : String) (stats : IngestStats) (res : List Point × IngestStats),
      processRows measurement fname fmt tz field_types 1 rs stats = .ok res →
      (findA row "timestamp").join = some raw → raw ≠ "" → strptime raw fmt = none →
      iter_points [(fname, rs ++ [row])] measurement fmt tz field_types stats =
        .error (.timestampParse raw fname (1 + rs.length)) ∧
      ∃ s1 s2 s3, IngestErr.message (.timestampParse raw fname (1 + rs.length)) =
        s1 ++ raw ++ s2 ++ fname ++ s3 ++ toString (1 + rs.length)) ∧
    (∀ name : String, ¬(name = "" ∨ pyLower name = "naive") → pyUpper name ≠ "UTC" →
      findA zoneOffsets name = none →
      resolve_timezone name = .error (.unknownTimeZone name) ∧
      ∃ s1, TzErr.message (.unknownTimeZone name) = s1 ++ name) := by
  refine ⟨?_, ?_, ?_⟩
  · intro directory entries
    rw [locate_csv_files]
    by_cases h : (sortStrings (entries.filter matchesCsv)).isEmpty = true
    · rw [if_pos h]
      simp only [List.isEmpty_iff, sortStrings_eq_nil_iff, List.filter_eq_nil_iff] at h
      constructor
      · intro _ n hn hcsv
        exact h n hn hcsv
      · intro _
        exact ⟨.noCsvFiles directory, rfl⟩
    · rw [if_neg h]
      simp only [List.isEmpty_iff, sortStrings_eq_nil_iff, List.filter_eq_nil_iff] at h
      push_neg at h
      obtain ⟨n, hn, hcsv⟩ := h
      constructor
      · intro he
        obtain ⟨e, he⟩ := he
        exact absurd he (by simp)
      · intro hall
        exact absurd (hall n hn) (by simp [hcsv])
  · intro measurement fname fmt tz field_types rs row raw stats res hok hts hraw hparse
    have herr := processRows_snoc_error measurement fname fmt tz field_types row raw
      hts hraw hparse rs 1 stats res hok
    constructor
    · rw [iter_points, herr]
    · exact ⟨"Failed to parse timestamp '", "' in ", " at row ", rfl⟩
  · intro name h1 h2 h3
    constructor
    · rw [resolve_timezone, if_neg h1, if_neg h2, h3]
    · exact ⟨"Unknown time zone: ", rfl⟩

/-- Witness for C8: each fatal condition fires on a concrete input. -/
theorem fatal_conditions_wit :
    (∃ e, locate_csv_files "data/experiment_opc_log" ["notes.txt"] = .error e) ∧
    iter_points [("f.csv", [[("timestamp", some "xx")]])] "m" "%Y-%m-%d %H:%M:%S"
      (some 0) [] ⟨[]⟩ = .error (.timestampParse "xx" "f.csv" 1) ∧
    resolve_timezone "Mars/Olympus" = .error (.unknownTimeZone "Mars/Olympus") := by
  refine ⟨(fatal_conditions.1 "data/experiment_opc_log" ["notes.txt"]).mpr (by decide),
    ?_, (fatal_conditions.2.2 "Mars/Olympus" (by decide) (by decide) (by decide)).1⟩
  exact (fatal_conditions.2.1 "m" "f.csv" "%Y-%m-%d %H:%M:%S" (some 0) []
    [] [("timestamp", some "xx")] "xx" ⟨[]⟩ ([], ⟨[]⟩) (by decide) (by decide)
    (by decide) (by decide)).1

/-! ### Timestamp normalization -/

theorem strptime_tz (raw fmt : String) (ts : Datetime) (h : strptime raw fmt = some ts) :
    ts.tzoffset = none := by
  rw [strptime] at h
  rcases hgo : strpGo (collapseWs fmt.data) raw.data default with _ | acc
  · simp only [hgo] at h
    exact absurd h (by simp)
  · simp only [hgo] at h
    by_cases hvd : 1 ≤ acc.y ∧ acc.d ≤ daysInMonth (acc.y : Int) acc.m
    · rw [if_pos hvd] at h
      cases h
      rfl
    · rw [if_neg hvd] at h
      exact absurd h (by simp)

theorem dayRoll1 (y : Int) :
    daysFromCivil y 2 1 = daysFromCivil y 1 (daysInMonth y 1) + 1 := by
  rw [show daysInMonth y 1 = 31 from rfl]
  simp only [daysFromCivil]
  norm_num
  omega

theorem dayRoll3 (y : Int) :
    daysFromCivil y 4 1 = daysFromCivil y 3 (daysInMonth y 3) + 1 := by
  rw [show daysInMonth y 3 = 31 from rfl]
  simp only [daysFromCivil]
  norm_num
  omega

theorem dayRoll4 (y : Int) :
    daysFromCivil y 5 1 = daysFromCivil y 4 (daysInMonth y 4) + 1 := by
  rw [show daysInMonth y 4 = 30 from rfl]
  simp only [daysFromCivil]
  norm_num
  omega

theorem dayRoll5 (y : Int) :
    daysFromCivil y 6 1 = daysFromCivil y 5 (daysInMonth y 5) + 1 := by
  rw [show daysInMonth y 5 = 31 from rfl]
  simp only [daysFromCivil]
  norm_num
  omega

theorem dayRoll6 (y : Int) :
    daysFromCivil y 7 1 = daysFromCivil y 6 (daysInMonth y 6) + 1 := by
  rw [show daysInMonth y 6 = 30 from rfl]
  simp only [daysFromCivil]
  norm_num
  omega

theorem dayRoll7 (y : Int) :
    daysFromCivil y 8 1 = daysFromCivil y 7 (daysInMonth y 7) + 1 := by
  rw [show daysInMonth y 7 = 31 from rfl]
  simp only [daysFromCivil]
  norm_num
  omega

theorem dayRoll8 (y : Int) :
    daysFromCivil y 9 1 = daysFromCivil y 8 (daysInMonth y 8) + 1 := by
  rw [show daysInMonth y 8 = 31 from rfl]
  simp only [daysFromCivil]
  norm_num
  omega

theorem dayRoll9 (y : Int) :
    daysFromCivil y 10 1 = daysFromCivil y 9 (daysInMonth y 9) + 1 := by
  rw [show daysInMonth y 9 = 30 from rfl]
  simp only [daysFromCivil]
  norm_num
  omega

theorem dayRoll10 (y : Int) :
    daysFromCivil y 11 1 = daysFromCivil y 10 (daysInMonth y 10) + 1 := by
  rw [show daysInMonth y 10 = 31 from rfl]
  simp only [daysFromCivil]
  norm_num
  omega

theorem dayRoll11 (y : Int) :
    daysFromCivil y 12 1 = daysFromCivil y 11 (daysInMonth y 11) + 1 := by
  rw [show daysInMonth y 11 = 30 from rfl]
  simp only [daysFromCivil]
  norm_num
  omega

theorem dayRollFebLeap (y : Int) (hl : isLeapYear y = true) :
    daysFromCivil y 3 1 = daysFromCivil y 2 (daysInMonth y 2) + 1 := by
  have hl2 : (y % 4 = 0 ∧ y % 100 ≠ 0) ∨ y % 400 = 0 := by
    simpa [isLeapYear] using hl
  rw [show daysInMonth y 2 = 29 from by simp [daysInMonth, hl]]
  simp only [daysFromCivil]
  norm_num
  omega

theorem dayRollFebNon (y : Int) (hl : isLeapYear y = false) :
    daysFromCivil y 3 1 = daysFromCivil y 2 (daysInMonth y 2) + 1 := by
  have hl2 : ¬((y % 4 = 0 ∧ y % 100 ≠ 0) ∨ y % 400 = 0) := by
    simpa [isLeapYear] using hl
  rw [show daysInMonth y 2 = 28 from by simp [daysInMonth, hl]]
  simp only [daysFromCivil]
  norm_num
  omega

theorem dayRollDec (y : Int) :
    daysFromCivil (y + 1) 1 1 = daysFromCivil y 12 (daysInMonth y 12) + 1 := by
  rw [show daysInMonth y 12 = 31 from rfl]
  simp only [daysFromCivil]
  norm_num
  omega

theorem daysFromCivil_nextDate (y : Int) (m d : Nat)
    (hm1 : 1 ≤ m) (hm2 : m ≤ 12) (hd1 : 1 ≤ d) (hd2 : d ≤ daysInMonth y m) :
    daysFromCivil (nextDate y m d).1 (nextDate y m d).2.1 (nextDate y m d).2.2 =
      daysFromCivil y m d + 1 := by
  rw [nextDate]
  by_cases hlt : d < daysInMonth y m
  · rw [if_pos hlt]
    simp only [daysFromCivil]
    push_cast
    omega
  · rw [if_neg hlt]
    have hd3 : d = daysInMonth y m := by omega
    have hm12 : m = 1 ∨ m = 2 ∨ m = 3 ∨ m = 4 ∨ m = 5 ∨ m = 6 ∨ m = 7 ∨ m = 8 ∨
        m = 9 ∨ m = 10 ∨ m = 11 ∨ m = 12 := by omega
    rcases hm12 with rfl | rfl | rfl | rfl | rfl | rfl | rfl | rfl | rfl | rfl | rfl | rfl
    · rw [if_pos (show (1 : Nat) < 12 from by norm_num), hd3]
      exact dayRoll1 y
    · rw [if_pos (show (2 : Nat) < 12 from by norm_num), hd3]
      rcases hb : isLeapYear y with _ | _
      · exact dayRollFebNon y hb
      · exact dayRollFebLeap y hb
    · rw [if_pos (show (3 : Nat) < 12 from by norm_num), hd3]
      exact dayRoll3 y
    · rw [if_pos (show (4 : Nat) < 12 from by norm_num), hd3]
      exact dayRoll4 y
    · rw [if_pos (show (5 : Nat) < 12 from by norm_num), hd3]
      exact dayRoll5 y
    · rw [if_pos (show (6 : Nat) < 12 from by norm_num), hd3]
      exact dayRoll6 y
    · rw [if_pos (show (7 : Nat) < 12 from by norm_num), hd3]
      exact dayRoll7 y
    · rw [if_pos (show (8 : Nat) < 12 from by norm_num), hd3]
      exact dayRoll8 y
    · rw [if_pos (show (9 : Nat) < 12 from by norm_num), hd3]
      exact dayRoll9 y
    · rw [if_pos (show (10 : Nat) < 12 from by norm_num), hd3]
      exact dayRoll10 y
    · rw [if_pos (show (11 : Nat) < 12 from by norm_num), hd3]
      exact dayRoll11 y
    · rw [if_neg (show ¬(12 : Nat) < 12 from by norm_num), hd3]
      exact dayRollDec y

theorem daysFromCivil_prevDate (y : Int) (m d : Nat)
    (hm1 : 1 ≤ m) (hm2 : m ≤ 12) (hd1 : 1 ≤ d) (hd2 : d ≤ daysInMonth y m) :
    daysFromCivil (prevDate y m d).1 (prevDate y m d).2.1 (prevDate y m d).2.2 =
      daysFromCivil y m d - 1 := by
  rw [prevDate]
  by_cases hgt : 1 < d
  · rw [if_pos hgt]
    simp only [daysFromCivil]
    omega
  · rw [if_neg hgt]
    have hd3 : d = 1 := by omega
    subst hd3
    have hm12 : m = 1 ∨ m = 2 ∨ m = 3 ∨ m = 4 ∨ m = 5 ∨ m = 6 ∨ m = 7 ∨ m = 8 ∨
        m = 9 ∨ m = 10 ∨ m = 11 ∨ m = 12 := by omega
    rcases hm12 with rfl | rfl | rfl | rfl | rfl | rfl | rfl | rfl | rfl | rfl | rfl | rfl
    · rw [if_neg (show ¬(1 : Nat) < 1 from by norm_num)]
      have h := dayRollDec (y - 1)
      rw [show y - 1 + 1 = y from by omega] at h
      rw [show daysInMonth (y - 1) 12 = 31 from rfl] at h
      show daysFromCivil (y - 1) 12 31 = daysFromCivil y 1 1 - 1
      omega
    · rw [if_pos (show (1 : Nat) < 2 from by norm_num)]
      have h := dayRoll1 y
      show daysFromCivil y 1 (daysInMonth y 1) = daysFromCivil y 2 1 - 1
      omega
    · rw [if_pos (show (1 : Nat) < 3 from by norm_num)]
      rcases hb : isLeapYear y with _ | _
      · have h := dayRollFebNon y hb
        show daysFromCivil y 2 (daysInMonth y 2) = daysFromCivil y 3 1 - 1
        omega
      · have h := dayRollFebLeap y hb
        show daysFromCivil y 2 (daysInMonth y 2) = daysFromCivil y 3 1 - 1
        omega
    · rw [if_pos (show (1 : Nat) < 4 from by norm_num)]
      have h := dayRoll3 y
      show daysFromCivil y 3 (daysInMonth y 3) = daysFromCivil y 4 1 - 1
      omega
    · rw [if_pos (show (1 : Nat) < 5 from by norm_num)]
      have h := dayRoll4 y
      show daysFromCivil y 4 (daysInMonth y 4) = daysFromCivil y 5 1 - 1
      omega
    · rw [if_pos (show (1 : Nat) < 6 from by norm_num)]
      have h := dayRoll5 y
      show daysFromCivil y 5 (daysInMonth y 5) = daysFromCivil y 6 1 - 1
      omega
    · rw [if_pos (show (1 : Nat) < 7 from by norm_num)]
      have h := dayRoll6 y
      show daysFromCivil y 6 (daysInMonth y 6) = daysFromCivil y 7 1 - 1
      omega
    · rw [if_pos (show (1 : Nat) < 8 from by norm_num)]
      have h := dayRoll7 y
      show daysFromCivil y 7 (daysInMonth y 7) = daysFromCivil y 8 1 - 1
      omega
    · rw [if_pos (show (1 : Nat) < 9 from by norm_num)]
      have h := dayRoll8 y
      show daysFromCivil y 8 (daysInMonth y 8) = daysFromCivil y 9 1 - 1
      omega
    · rw [if_pos (show (1 : Nat) < 10 from by norm_num)]
      have h := dayRoll9 y
      show daysFromCivil y 9 (daysInMonth y 9) = daysFromCivil y 10 1 - 1
      omega
    · rw [if_pos (show (1 : Nat) < 11 from by norm_num)]
      have h := dayRoll10 y
      show daysFromCivil y 10 (daysInMonth y 10) = daysFromCivil y 11 1 - 1
      omega
    · rw [if_pos (show (1 : Nat) < 12 from by norm_num)]
      have h := dayRoll11 y
      show daysFromCivil y 11 (daysInMonth y 11) = daysFromCivil y 12 1 - 1
      omega

theorem astimezoneUtc_instant (dt : Datetime) (off : Int) (h : dt.tzoffset = some off)
    (hv : dt.validFields) (hoff1 : -1440 < off) (hoff2 : off < 1440) :
    (astimezoneUtc dt).tzoffset = some 0 ∧
    (astimezoneUtc dt).instantSecs = dt.instantSecs := by
  obtain ⟨hm1, hm2, hd1, hd2, hH, hM, hS⟩ := hv
  have hnext := daysFromCivil_nextDate dt.year dt.month dt.day hm1 hm2 hd1 hd2
  have hprev := daysFromCivil_prevDate dt.year dt.month dt.day hm1 hm2 hd1 hd2
  have htot1 : -1440 < 60 * (dt.hour : Int) + (dt.minute : Int) - off := by omega
  have htot2 : 60 * (dt.hour : Int) + (dt.minute : Int) - off < 2880 := by omega
  have hq : (60 * (dt.hour : Int) + (dt.minute : Int) - off) / 1440 = -1 ∨
      (60 * (dt.hour : Int) + (dt.minute : Int) - off) / 1440 = 0 ∨
      (60 * (dt.hour : Int) + (dt.minute : Int) - off) / 1440 = 1 := by omega
  rcases hq with hq | hq | hq <;>
    simp only [astimezoneUtc, h, shiftDate, hq, Datetime.instantSecs, Datetime.wallSecs,
      Option.getD_some] <;>
    norm_num <;>
    omega

/-- C7: timestamps that parse under the configured format pass through
unmodified under the NAIVE ("keep as written") rule, retaining the wall-clock
value; under the UTC rule or a resolved named-timezone offset, the zone is
attached to the naive parsed value and the result is expressed in UTC
(offset 0) and denotes the same instant as the zoned wall-clock value. -/
theorem timestamp_timezone_rule (raw fmt : String) (ts : Datetime) (off : Int)
    (hts : strptime raw fmt = some ts) (hv : ts.validFields)
    (hoff1 : -1440 < off) (hoff2 : off < 1440) :
    resolve_timezone "NAIVE" = .ok none ∧
    resolve_timezone "UTC" = .ok (some 0) ∧
    parse_timestamp raw fmt none = .ok ts ∧
    ∃ r, parse_timestamp raw fmt (some off) = .ok r ∧ r.tzoffset = some 0 ∧
      r.instantSecs = Datetime.instantSecs { ts with tzoffset := some off } := by
  have htz := strptime_tz raw fmt ts hts
  refine ⟨by decide, by decide, ?_, ?_⟩
  · simp only [parse_timestamp, hts]
  · refine ⟨astimezoneUtc { ts with tzoffset := some off }, ?_, ?_⟩
    · simp only [parse_timestamp, hts, htz, if_true]
    · have hv2 : Datetime.validFields { ts with tzoffset := some off } := hv
      exact (astimezoneUtc_instant { ts with tzoffset := some off } off rfl hv2 hoff1 hoff2)

/-- Witness for C7: the NAIVE rule keeps `2024-06-01 12:00:00` as written,
and the Asia/Tokyo offset (+540 minutes) converts it to the same instant
expressed in UTC. -/
theorem timestamp_timezone_rule_wit :
    parse_timestamp "2024-06-01 12:00:00" "%Y-%m-%d %H:%M:%S" none =
      .ok ⟨2024, 6, 1, 12, 0, 0, none⟩ ∧
    ∃ r, parse_timestamp "2024-06-01 12:00:00" "%Y-%m-%d %H:%M:%S" (some 540) = .ok r ∧
      r.tzoffset = some 0 ∧
      r.instantSecs = Datetime.instantSecs ⟨2024, 6, 1, 12, 0, 0, some 540⟩ := by
  have h := timestamp_timezone_rule "2024-06-01 12:00:00" "%Y-%m-%d %H:%M:%S"
    ⟨2024, 6, 1, 12, 0, 0, none⟩ 540 (by decide) (by decide) (by decide) (by decide)
  exact ⟨h.2.2.1, h.2.2.2⟩

example :
    strptime "2024-01-01 00:00:00" "%Y-%m-%d %H:%M:%S" =
    some ⟨2024, 1, 1, 0, 0, 0, none⟩ := by decide
example : strptime "2024-02-30 00:00:00" "%Y-%m-%d %H:%M:%S" = none := by decide
example : strptime "2024-06-01" "%Y-%m-%d" = some ⟨2024, 6, 1, 0, 0, 0, none⟩ := by decide
example : strptime "x" "%Y-%m-%d" = none := by decide
example :
    parse_timestamp "2024-06-01 12:00:00" "%Y-%m-%d %H:%M:%S" none =
    .ok ⟨2024, 6, 1, 12, 0, 0, none⟩ := by decide
example :
    parse_timestamp "2024-06-01 00:30:00" "%Y-%m-%d %H:%M:%S" (some 540) =
    .ok ⟨2024, 5, 31, 15, 30, 0, some 0⟩ := by decide
example :
    parse_timestamp "2024-01-01 00:00:00" "%Y-%m-%d %H:%M:%S" (some 0) =
    .ok ⟨2024, 1, 1, 0, 0, 0, some 0⟩ := by decide
example : resolve_timezone "NAIVE" = .ok none := by decide
example : resolve_timezone "Mars/Olympus" = .error (.unknownTimeZone "Mars/Olympus") := by decide
example :
    write_points [] 2 = (0, 0, []) := by decide
example :
    iter_points
      [("f.csv",
        [[("timestamp", some "2024-01-01 00:00:00"), ("temp", some "21.5"), ("alarm", some "true")],
         [("timestamp", some ""), ("temp", some "22.0"), ("alarm", some "false")]])]
      "m" "%Y-%m-%d %H:%M:%S" (some 0)
      (detect_field_types
        [[[("timestamp", some "2024-01-01 00:00:00"), ("temp", some "21.5"), ("alarm", some "true")],
          [("timestamp", some ""), ("temp", some "22.0"), ("alarm", some "false")]]])
      ⟨[]⟩ =
    .ok ([⟨"m", [("source_file", "f.csv")], ⟨2024, 1, 1, 0, 0, 0, some 0⟩,
          [("temp", .float (.finite 215 10)), ("alarm", .bool true)]⟩], ⟨[]⟩) := by decide

example :
    (write_points
      [⟨"a", [], ⟨2024, 1, 1, 0, 0, 0, none⟩, []⟩, ⟨"b", [], ⟨2024, 1, 1, 0, 0, 0, none⟩, []⟩,
       ⟨"c", [], ⟨2024, 1, 1, 0, 0, 0, none⟩, []⟩, ⟨"d", [], ⟨2024, 1, 1, 0, 0, 0, none⟩, []⟩,
       ⟨"e", [], ⟨2024, 1, 1, 0, 0, 0, none⟩, []⟩] 2).2.2.map List.length = [2, 2, 1] := by decide

example : pyFloat? "21.5" = some (.finite 215 10) := by decide
example : pyFloat? "ok" = none := by decide
example : pyFloat? "1_000" = some (.finite 1000 1) := by decide
example : pyFloat? "-2e3" = some (.finite (-2000) 1) := by decide
example : pyFloat? "1__0" = none := by decide
example : pyFloat? ".5e-1" = some (.finite 5 100) := by decide
example : pyFloat? "Inf" = some (.inf false) := by decide
example : classifyValue "True" = .bool := by decide
example : classifyValue "42" = .float := by decide
example : classifyValue "ok" = .string := by decide
example :
    detect_field_types [[[("timestamp", some "x"), ("temp", some "21.5"), ("alarm", some "true")],
      [("timestamp", some ""), ("temp", some "22.0"), ("alarm", some "false")]]] =
    [("temp", .float), ("alarm", .bool)] := by decide
example :
    coerce_field_value "status" "ok" [("status", .float)] (some ⟨[]⟩) =
    (none, some ⟨[("status", 1)]⟩) := by decide
example :
    coerce_field_value "status" " " [("status", .float)] (some ⟨[]⟩) =
    (none, some ⟨[]⟩) := by decide
